import Mathlib

/-!
Verification development for the WAV metadata codec (`wav_metadata.py`) of the
AudioMetadataEditor repository.

The Python source is shallowly embedded: bytes are `List Nat` (each value
below 256), Python file streams are a `ByteStream` (content plus cursor),
Python dictionaries of metadata are the `Metadata` structure, and Python
exceptions are `Except String` values.  External library calls
(`wavinfo.WavInfoReader`, its `bext`/`ixml` attribute objects and
`to_dict`) are modelled as oracle data carried in environment structures, so
theorems quantify over every possible behaviour of those libraries.  The
standard-library pieces the codec leans on (UTF-8 decoding with
`errors='ignore'`, `str.strip`, `re.search` for the six fixed patterns,
`xml.etree.ElementTree.fromstring` / `find`) are implemented here with the
same observable behaviour on the inputs the codec feeds them.
-/

/-! ## Python string and byte primitives -/

/-- Python whitespace characters recognised by `str.strip` (ASCII range). -/
def isPyWs (c : Char) : Bool :=
  c = ' ' || c = '\t' || c = '\n' || c = '\r' || c = '\x0b' || c = '\x0c'

/-- Model of Python `str.strip()`: drop whitespace from both ends. -/
def pyStrip (s : String) : String :=
  ⟨(((s.data.dropWhile isPyWs).reverse.dropWhile isPyWs).reverse)⟩

/-- Model of the Python slice `data[a:b]` (for `0 ≤ a ≤ b`): clipping drop/take. -/
def pySlice (a b : Nat) (data : List Nat) : List Nat :=
  (data.drop a).take (b - a)

/-- Model of `struct.unpack('<I', -)` on a 4-byte little-endian string. -/
def le32 : List Nat → Nat
  | [b0, b1, b2, b3] => b0 + 256 * b1 + 65536 * b2 + 16777216 * b3
  | _ => 0

/-- One step of UTF-8 decoding: the code point and the number of bytes
consumed, or `none` when the head of the list is not a valid sequence.
Overlong encodings, surrogates and values above U+10FFFF are invalid, as in
CPython's decoder. -/
def utf8ReadOne : List Nat → Option (Nat × Nat)
  | [] => none
  | b0 :: rest =>
    if b0 < 0x80 then some (b0, 1)
    else if 0xC2 ≤ b0 && b0 ≤ 0xDF then
      match rest with
      | b1 :: _ =>
        if 0x80 ≤ b1 && b1 ≤ 0xBF then some ((b0 - 0xC0) * 64 + (b1 - 0x80), 2) else none
      | _ => none
    else if 0xE0 ≤ b0 && b0 ≤ 0xEF then
      match rest with
      | b1 :: b2 :: _ =>
        if 0x80 ≤ b1 && b1 ≤ 0xBF && 0x80 ≤ b2 && b2 ≤ 0xBF then
          let cp := (b0 - 0xE0) * 4096 + (b1 - 0x80) * 64 + (b2 - 0x80)
          if 0x800 ≤ cp && ¬ (0xD800 ≤ cp && cp ≤ 0xDFFF) then some (cp, 3) else none
        else none
      | _ => none
    else if 0xF0 ≤ b0 && b0 ≤ 0xF4 then
      match rest with
      | b1 :: b2 :: b3 :: _ =>
        if 0x80 ≤ b1 && b1 ≤ 0xBF && 0x80 ≤ b2 && b2 ≤ 0xBF && 0x80 ≤ b3 && b3 ≤ 0xBF then
          let cp := (b0 - 0xF0) * 262144 + (b1 - 0x80) * 4096 + (b2 - 0x80) * 64 + (b3 - 0x80)
          if 0x10000 ≤ cp && cp ≤ 0x10FFFF then some (cp, 4) else none
        else none
      | _ => none
    else none

/-- Fuelled core of UTF-8 decoding with `errors='ignore'`: invalid bytes are
dropped one at a time (equivalent, on the produced text, to CPython's
per-error-range skipping, since skipped continuation bytes are themselves
invalid start bytes). -/
def utf8IgnoreAux : Nat → List Nat → List Char
  | 0, _ => []
  | _, [] => []
  | fuel + 1, b :: bs =>
    match utf8ReadOne (b :: bs) with
    | some (cp, k) => Char.ofNat cp :: utf8IgnoreAux fuel ((b :: bs).drop k)
    | none => utf8IgnoreAux fuel bs

/-- Model of Python `bytes.decode('utf-8', errors='ignore')`. -/
def decodeIgnore (data : List Nat) : String :=
  ⟨utf8IgnoreAux data.length data⟩

/-- Fuelled core of UTF-8 decoding with `errors='replace'`: invalid bytes
become U+FFFD. -/
def utf8ReplaceAux : Nat → List Nat → List Char
  | 0, _ => []
  | _, [] => []
  | fuel + 1, b :: bs =>
    match utf8ReadOne (b :: bs) with
    | some (cp, k) => Char.ofNat cp :: utf8ReplaceAux fuel ((b :: bs).drop k)
    | none => '�' :: utf8ReplaceAux fuel bs

/-- Model of Python `bytes.decode('utf-8', errors='replace')`. -/
def decodeReplace (data : List Nat) : String :=
  ⟨utf8ReplaceAux data.length data⟩

/-- Fuelled core of strict UTF-8 decoding; `none` models `UnicodeDecodeError`. -/
def utf8StrictAux : Nat → List Nat → Option (List Char)
  | 0, _ => some []
  | _, [] => some []
  | fuel + 1, b :: bs =>
    match utf8ReadOne (b :: bs) with
    | some (cp, k) =>
      match utf8StrictAux fuel ((b :: bs).drop k) with
      | some cs => some (Char.ofNat cp :: cs)
      | none => none
    | none => none

/-- Model of strict Python `bytes.decode('utf-8')`, used by `ET.fromstring`. -/
def decodeStrict (data : List Nat) : Option String :=
  (utf8StrictAux data.length data).map fun cs => ⟨cs⟩

/-- Model of `os.path.basename` on POSIX: the part after the last slash. -/
def pyBasename (path : String) : String :=
  (path.splitOn "/").getLastD ""

/-! ## The metadata record

The Python code passes around a dictionary with these exact keys
(`read_metadata` lines 41–53); `Error` is added only by the top-level
handler of `read_wav_metadata`. -/

/-- The metadata dictionary built by `WavMetadata.read_metadata`, plus the
`Error` key that `read_wav_metadata`'s exception handler may add. -/
structure Metadata where
  Filename : String
  Show : String
  Scene : String
  Take : String
  Category : String
  Subcategory : String
  Slate : String
  ixmlNote : String
  ixmlWildtrack : String
  ixmlCircled : String
  FilePath : String
  Error : Option String
deriving DecidableEq, Repr

/-- The seven metadata fields the extractors may populate. -/
inductive MField where
  | fShow | fScene | fTake | fCategory | fSubcategory | fNote | fCircled
deriving DecidableEq, Repr

/-- Projection of an extractable field out of a record. -/
def getF : MField → Metadata → String
  | .fShow, m => m.Show
  | .fScene, m => m.Scene
  | .fTake, m => m.Take
  | .fCategory, m => m.Category
  | .fSubcategory, m => m.Subcategory
  | .fNote, m => m.ixmlNote
  | .fCircled, m => m.ixmlCircled

/-- The freshly initialised dictionary of `read_metadata` (lines 41–53). -/
def init_metadata (path : String) : Metadata :=
  { Filename := pyBasename path, Show := "", Scene := "", Take := ""
    Category := "", Subcategory := "", Slate := "", ixmlNote := ""
    ixmlWildtrack := "", ixmlCircled := "", FilePath := path, Error := none }

/-- The all-default record with `Error` set, returned by the exception
handler of `read_wav_metadata` (lines 601–614). -/
def error_record (path e : String) : Metadata :=
  { init_metadata path with Error := some e }

/-! ## The six `re.search` patterns of the codec

Each Python pattern is compiled by hand into an ordered-alternative matcher
over `List Char`.  `re.search` semantics (leftmost starting position, then
ordered alternation with backtracking into the continuation) are realised by
`searchL` together with `Option.orElse` chains; within each pattern the
adjacent character classes (`[_\s]`, `\d`, `[:\s]`, `\w`) are pairwise
disjoint, so greedy class repetition needs no further backtracking. -/

/-- Character class `\d` (ASCII, as matched on these inputs). -/
def isDigitC (c : Char) : Bool := '0' ≤ c && c ≤ '9'

/-- Character class `\w` (ASCII letters, digits, underscore). -/
def isWordC (c : Char) : Bool := c.isAlpha || isDigitC c || c = '_'

/-- Character class `[_\s]` used between scene/take tokens. -/
def isUsWs (c : Char) : Bool := c = '_' || isPyWs c

/-- Character class `[:\s]` used after field labels. -/
def isColonWs (c : Char) : Bool := c = ':' || isPyWs c

/-- Character class `[^,;\r\n]` closing the labelled-value captures. -/
def isValC (c : Char) : Bool := ¬ (c = ',' || c = ';' || c = '\r' || c = '\n')

/-- Case-insensitive literal match: strip the (lowercase) pattern from the
head of the input, comparing case-insensitively. -/
def stripCIL : List Char → List Char → Option (List Char)
  | [], s => some s
  | _ :: _, [] => none
  | p :: ps, c :: cs => if c.toLower = p then stripCIL ps cs else none

/-- Greedy `(\d+)`: a nonempty digit run and the remaining input. -/
def matchDigits (s : List Char) : Option (List Char × List Char) :=
  let d := s.takeWhile isDigitC
  if d.isEmpty then none else some (d, s.drop d.length)

/-- Greedy `[:\s]+(\w+)`: the continuation shared by the labelled Scene/Take
patterns. -/
def contLabelWord (s : List Char) : Option String :=
  let sp := s.takeWhile isColonWs
  if sp.isEmpty then none
  else
    let r := s.drop sp.length
    let w := r.takeWhile isWordC
    if w.isEmpty then none else some ⟨w⟩

/-- Greedy `[:\s]+(\w[^,;\r\n]*)`: the continuation shared by the
Show/Category/Subcategory patterns. -/
def contLabelLine (s : List Char) : Option String :=
  let sp := s.takeWhile isColonWs
  if sp.isEmpty then none
  else
    match s.drop sp.length with
    | c :: r => if isWordC c then some ⟨c :: r.takeWhile isValC⟩ else none
    | [] => none

/-- Attempt of `S(?:C|CNE)?[_\s]*(\d+)[_\s]*T(?:K|AKE)?[_\s]*(\d+)`
(case-insensitive) anchored at the head of the input. -/
def matchSceneTakeAt (s : List Char) : Option (String × String) :=
  match s with
  | [] => none
  | c :: r =>
    if c.toLower = 's' then
      let afterT : String → List Char → Option (String × String) := fun d1 r6 =>
        (matchDigits (r6.dropWhile isUsWs)).map fun (d2, _) => (d1, (⟨d2⟩ : String))
      let afterS : List Char → Option (String × String) := fun r2 => do
        let (d1, r3) ← matchDigits (r2.dropWhile isUsWs)
        match r3.dropWhile isUsWs with
        | t :: r5 =>
          if t.toLower = 't' then
            (stripCIL ['k'] r5 >>= afterT ⟨d1⟩) <|>
            (stripCIL ['a', 'k', 'e'] r5 >>= afterT ⟨d1⟩) <|>
            afterT ⟨d1⟩ r5
          else none
        | [] => none
      (stripCIL ['c'] r >>= afterS) <|>
      (stripCIL ['c', 'n', 'e'] r >>= afterS) <|>
      afterS r
    else none

/-- Attempt of `(?:SHOW|PROGRAM|SERIES)[:\s]+(\w[^,;\r\n]*)` (case-insensitive)
anchored at the head of the input. -/
def matchShowAt (s : List Char) : Option String :=
  (stripCIL ['s', 'h', 'o', 'w'] s >>= contLabelLine) <|>
  (stripCIL ['p', 'r', 'o', 'g', 'r', 'a', 'm'] s >>= contLabelLine) <|>
  (stripCIL ['s', 'e', 'r', 'i', 'e', 's'] s >>= contLabelLine)

/-- Attempt of `SC(?:ENE|N)?[:\s]+(\w+)` (case-insensitive) anchored at the
head of the input. -/
def matchSceneLabelAt (s : List Char) : Option String :=
  stripCIL ['s', 'c'] s >>= fun r =>
    (stripCIL ['e', 'n', 'e'] r >>= contLabelWord) <|>
    (stripCIL ['n'] r >>= contLabelWord) <|>
    contLabelWord r

/-- Attempt of `T(?:AKE|K)?[:\s]+(\w+)` (case-insensitive) anchored at the
head of the input. -/
def matchTakeLabelAt (s : List Char) : Option String :=
  stripCIL ['t'] s >>= fun r =>
    (stripCIL ['a', 'k', 'e'] r >>= contLabelWord) <|>
    (stripCIL ['k'] r >>= contLabelWord) <|>
    contLabelWord r

/-- Attempt of `(?:CAT(?:EGORY)?|TYPE)[:\s]+(\w[^,;\r\n]*)` (case-insensitive)
anchored at the head of the input. -/
def matchCatLabelAt (s : List Char) : Option String :=
  (stripCIL ['c', 'a', 't', 'e', 'g', 'o', 'r', 'y'] s >>= contLabelLine) <|>
  (stripCIL ['c', 'a', 't'] s >>= contLabelLine) <|>
  (stripCIL ['t', 'y', 'p', 'e'] s >>= contLabelLine)

/-- Attempt of `(?:SUB(?:CAT(?:EGORY)?)?|SUBTYPE)[:\s]+(\w[^,;\r\n]*)`
(case-insensitive) anchored at the head of the input. -/
def matchSubcatLabelAt (s : List Char) : Option String :=
  (stripCIL ['s', 'u', 'b', 'c', 'a', 't', 'e', 'g', 'o', 'r', 'y'] s >>= contLabelLine) <|>
  (stripCIL ['s', 'u', 'b', 'c', 'a', 't'] s >>= contLabelLine) <|>
  (stripCIL ['s', 'u', 'b'] s >>= contLabelLine) <|>
  (stripCIL ['s', 'u', 'b', 't', 'y', 'p', 'e'] s >>= contLabelLine)

/-- Model of `re.search`: try the anchored matcher at each position, leftmost
success first.  All six patterns need at least one character, so the empty
suffix never matches. -/
def searchL {α : Type} (f : List Char → Option α) : List Char → Option α
  | [] => none
  | c :: cs => f (c :: cs) <|> searchL f cs

/-! ## Byte streams

A Python binary file handle: content plus cursor.  `bread` models `f.read(n)`
(returns up to `n` bytes, cursor advances by the amount returned; reading at
or past end-of-file returns nothing) and `bseek` models `f.seek(n, 1)`
(relative seek, allowed to move past end-of-file). -/

/-- A binary file opened for reading. -/
structure ByteStream where
  data : List Nat
  pos : Nat
deriving DecidableEq, Repr

/-- Model of `f.read(n)`. -/
def bread (s : ByteStream) (n : Nat) : List Nat × ByteStream :=
  let bytes := (s.data.drop s.pos).take n
  (bytes, { s with pos := s.pos + bytes.length })

/-- Model of `f.seek(n, 1)` for a nonnegative offset. -/
def bseek (s : ByteStream) (n : Nat) : ByteStream :=
  { s with pos := s.pos + n }

/-! ## A model of `xml.etree.ElementTree`

Only the behaviour the codec exercises is modelled: `fromstring` on a simple
element tree (tags, attributes skipped, text before the first child), and
`find` on the `.//TAG` and `.//TAG1/TAG2` path shapes the codec passes it.
Anything the model does not recognise is a parse error, which the codec
catches exactly as it catches `ET.ParseError`. -/

/-- An element: tag, text (before the first child, the only text
`elem.text` exposes), children. -/
inductive XmlNode where
  | mk (tag : String) (text : String) (children : List XmlNode)

/-- Tag of an element. -/
def XmlNode.tag : XmlNode → String
  | .mk t _ _ => t

/-- Text of an element (empty string models Python `None`/falsy text). -/
def XmlNode.text : XmlNode → String
  | .mk _ x _ => x

/-- Children of an element. -/
def XmlNode.children : XmlNode → List XmlNode
  | .mk _ _ cs => cs

mutual
/-- Strict descendants of an element in document (preorder) order. -/
def XmlNode.descendants : XmlNode → List XmlNode
  | .mk _ _ cs => XmlNode.descendantsL cs

/-- Preorder traversal of a forest. -/
def XmlNode.descendantsL : List XmlNode → List XmlNode
  | [] => []
  | c :: rest => c :: (XmlNode.descendants c ++ XmlNode.descendantsL rest)
end

/-- Model of `root.find(path)` for the two path shapes the codec uses:
`.//T` (first descendant with tag `T`) and `.//T1/T2` (first `T2` child of a
descendant tagged `T1`). -/
def xmlFind (root : XmlNode) : List String → Option XmlNode
  | [t] => root.descendants.find? fun n => n.tag = t
  | [t1, t2] =>
    root.descendants.findSome? fun n =>
      if n.tag = t1 then n.children.find? fun c => c.tag = t2 else none
  | _ => none

/-- Characters allowed in an element name by the model. -/
def isNameC (c : Char) : Bool :=
  c.isAlpha || isDigitC c || c = '_' || c = '-' || c = '.' || c = ':'

/-- Scan an open tag after its name: skip attributes up to `>`, reporting
whether the tag was self-closing (`/>`).  Returns the input after the `>`. -/
def scanTagEnd : List Char → Option (Bool × List Char)
  | [] => none
  | '>' :: r => some (false, r)
  | '/' :: '>' :: r => some (true, r)
  | _ :: r => scanTagEnd r

mutual
/-- Parse one element, the input starting at `<`. -/
def xmlParseElem : Nat → List Char → Except String (XmlNode × List Char)
  | 0, _ => .error "fuel"
  | fuel + 1, s =>
    match s with
    | '<' :: r =>
      let name := r.takeWhile isNameC
      if name.isEmpty then .error "bad tag" else
      match scanTagEnd (r.drop name.length) with
      | some (true, rest) => .ok (.mk ⟨name⟩ "" [], rest)
      | some (false, rest) =>
        match xmlParseContent fuel ⟨name⟩ rest with
        | .ok (txt, kids, rest') => .ok (.mk ⟨name⟩ txt kids, rest')
        | .error e => .error e
      | none => .error "unterminated tag"
    | _ => .error "expected element"

/-- Parse the content of an open element up to and including its close tag,
returning the text before the first child and the children. -/
def xmlParseContent : Nat → String → List Char → Except String (String × List XmlNode × List Char)
  | 0, _, _ => .error "fuel"
  | fuel + 1, closeTag, s =>
    let txt := s.takeWhile (· ≠ '<')
    match s.drop txt.length with
    | '<' :: '/' :: r =>
      let name := r.takeWhile isNameC
      match scanTagEnd (r.drop name.length) with
      | some (false, rest) =>
        if (⟨name⟩ : String) = closeTag then .ok (⟨txt⟩, [], rest)
        else .error "mismatched close tag"
      | _ => .error "bad close tag"
    | '<' :: r =>
      match xmlParseElem fuel ('<' :: r) with
      | .ok (child, rest) =>
        match xmlParseRest fuel closeTag rest with
        | .ok (kids, rest') => .ok (⟨txt⟩, child :: kids, rest')
        | .error e => .error e
      | .error e => .error e
    | _ => .error "unexpected end of data"

/-- Parse the remaining children of an open element (text between children is
discarded, as the codec never reads element tails). -/
def xmlParseRest : Nat → String → List Char → Except String (List XmlNode × List Char)
  | 0, _, _ => .error "fuel"
  | fuel + 1, closeTag, s =>
    let txt := s.takeWhile (· ≠ '<')
    match s.drop txt.length with
    | '<' :: '/' :: r =>
      let name := r.takeWhile isNameC
      match scanTagEnd (r.drop name.length) with
      | some (false, rest) =>
        if (⟨name⟩ : String) = closeTag then .ok ([], rest)
        else .error "mismatched close tag"
      | _ => .error "bad close tag"
    | '<' :: r =>
      match xmlParseElem fuel ('<' :: r) with
      | .ok (child, rest) =>
        match xmlParseRest fuel closeTag rest with
        | .ok (kids, rest') => .ok (child :: kids, rest')
        | .error e => .error e
      | .error e => .error e
    | _ => .error "unexpected end of data"
end

/-- Model of `ET.fromstring` on a byte payload: strict UTF-8 decode, one root
element, nothing but whitespace around it. -/
def fromstringModel (data : List Nat) : Except String XmlNode :=
  match decodeStrict data with
  | none => .error "not well-formed: invalid encoding"
  | some s =>
    let cs := s.data.dropWhile isPyWs
    match xmlParseElem (2 * cs.length + 2) cs with
    | .ok (root, rest) =>
      if rest.dropWhile isPyWs = [] then .ok root else .error "junk after document"
    | .error e => .error e

/-! ## Guarded field setters

Every assignment the extractors make has the shape `if not metadata[k]:
... metadata[k] = v` — compute a candidate (pure), assign only when the
field is still empty.  The seven setters below capture that shape once per
field; `none` models "no candidate" (a failed search / lookup), in which
case nothing happens. -/

/-- Guarded assignment to `Show`. -/
def setShow (v : Option String) (m : Metadata) : Metadata :=
  if m.Show = "" then match v with | some x => { m with Show := x } | none => m else m

/-- Guarded assignment to `Scene`. -/
def setScene (v : Option String) (m : Metadata) : Metadata :=
  if m.Scene = "" then match v with | some x => { m with Scene := x } | none => m else m

/-- Guarded assignment to `Take`. -/
def setTake (v : Option String) (m : Metadata) : Metadata :=
  if m.Take = "" then match v with | some x => { m with Take := x } | none => m else m

/-- Guarded assignment to `Category`. -/
def setCategory (v : Option String) (m : Metadata) : Metadata :=
  if m.Category = "" then match v with | some x => { m with Category := x } | none => m else m

/-- Guarded assignment to `Subcategory`. -/
def setSubcategory (v : Option String) (m : Metadata) : Metadata :=
  if m.Subcategory = "" then
    match v with | some x => { m with Subcategory := x } | none => m
  else m

/-- Guarded assignment to `ixmlNote`. -/
def setNote (v : Option String) (m : Metadata) : Metadata :=
  if m.ixmlNote = "" then match v with | some x => { m with ixmlNote := x } | none => m else m

/-- Guarded assignment to `ixmlCircled`. -/
def setCircled (v : Option String) (m : Metadata) : Metadata :=
  if m.ixmlCircled = "" then
    match v with | some x => { m with ixmlCircled := x } | none => m
  else m

/-- Python truthiness filter on an optional string: `some ""` (a falsy
value) counts as no candidate. -/
def optTruthy : Option String → Option String
  | some v => if v = "" then none else some v
  | none => none

/-! ## Chunk extractors (`WavMetadata._process_*_chunk`) -/

/-- Chunk and FourCC identifiers as byte strings. -/
def riffId : List Nat := [0x52, 0x49, 0x46, 0x46]

/-- Byte string `WAVE`. -/
def waveId : List Nat := [0x57, 0x41, 0x56, 0x45]

/-- Byte string `bext`. -/
def bextId : List Nat := [0x62, 0x65, 0x78, 0x74]

/-- Byte string `iXML`. -/
def ixmlId : List Nat := [0x69, 0x58, 0x4D, 0x4C]

/-- Byte string `INFO`. -/
def infoId : List Nat := [0x49, 0x4E, 0x46, 0x4F]

/-- Byte string `LIST`. -/
def listId : List Nat := [0x4C, 0x49, 0x53, 0x54]

/-- Byte string `ISBJ`. -/
def isbjId : List Nat := [0x49, 0x53, 0x42, 0x4A]

/-- Byte string `ICMT`. -/
def icmtId : List Nat := [0x49, 0x43, 0x4D, 0x54]

/-- The three fixed-offset text fields `_process_bext_chunk` slices out of a
`bext` payload (lines 291–299): Python slice, truncation at the first NUL,
`decode('utf-8', errors='ignore')`, `strip()`. -/
def bext_fields (data : List Nat) : String × String × String :=
  (pyStrip (decodeIgnore ((pySlice 0 256 data).takeWhile (· ≠ 0))),
   pyStrip (decodeIgnore ((pySlice 256 288 data).takeWhile (· ≠ 0))),
   pyStrip (decodeIgnore ((pySlice 288 320 data).takeWhile (· ≠ 0))))

/-- The regex heuristics of `_process_bext_chunk` (lines 305–341) applied to
the space-joined text of the three fields, in source order: the Show label
search, the combined scene/take pattern (Scene assigned before Take), then
the fallback Scene and Take label searches. -/
def bext_regex_phase (j : List Char) (m : Metadata) : Metadata :=
  let m := setShow (searchL matchShowAt j) m
  let m := setScene ((searchL matchSceneTakeAt j).map Prod.fst) m
  let m := setTake ((searchL matchSceneTakeAt j).map Prod.snd) m
  let m := setScene (searchL matchSceneLabelAt j) m
  let m := setTake (searchL matchTakeLabelAt j) m
  m

/-- Model of `WavMetadata._process_bext_chunk` (lines 284–344): read the
payload, slice the three text fields, then run the regex heuristics. -/
def process_bext_chunk (s : ByteStream) (size : Nat) (m : Metadata) :
    ByteStream × Metadata :=
  let data := (bread s size).1
  let description := (bext_fields data).1
  let originator := (bext_fields data).2.1
  let origRef := (bext_fields data).2.2
  ((bread s size).2,
   bext_regex_phase ((description ++ " " ++ originator ++ " " ++ origRef).data) m)

/-- Model of `find_element_text` inside `_process_ixml_chunk` (lines
360–368): first path whose element exists with truthy raw text; the returned
value is that text stripped. -/
def find_element_text (root : XmlNode) (paths : List (List String)) : Option String :=
  paths.findSome? fun p =>
    match xmlFind root p with
    | some el => if el.text ≠ "" then some (pyStrip el.text) else none
    | none => none

/-- The seven guarded tag searches of `_process_ixml_chunk` (lines 370–457),
in source order.  Each is `if not metadata[k]: v = find_element_text(...);
if v: metadata[k] = v`, which is the guarded setter under the truthiness
filter. -/
def ixml_fields (root : XmlNode) (m : Metadata) : Metadata :=
  let m := setShow (optTruthy (find_element_text root
    [["SHOW"], ["PROGRAM"], ["SERIES"], ["PROJECT"], ["TITLE"]])) m
  let m := setScene (optTruthy (find_element_text root
    [["SCENE"], ["BWF_SCENE"], ["BWFCORE", "BWF_SCENE"], ["BwfCore", "BWF_SCENE"]])) m
  let m := setTake (optTruthy (find_element_text root
    [["TAKE"], ["BWF_TAKE"], ["BWFCORE", "BWF_TAKE"], ["BwfCore", "BWF_TAKE"]])) m
  let m := setCategory (optTruthy (find_element_text root
    [["CATEGORY"], ["TYPE"], ["KIND"]])) m
  let m := setSubcategory (optTruthy (find_element_text root
    [["SUBCATEGORY"], ["SUBTYPE"], ["SUBKIND"]])) m
  let m := setNote (optTruthy (find_element_text root
    [["NOTE"], ["COMMENTS"], ["COMMENT"], ["DESCRIPTION"]])) m
  let m := setCircled (optTruthy (find_element_text root
    [["CIRCLED"], ["SLATE"], ["GOOD_TAKE"]])) m
  m

/-- The record effect of `WavMetadata._process_ixml_chunk` (lines 346–465)
on its payload: when it contains both `<` and `>`, parse it as XML and run
the guarded tag searches; a parse error leaves the record unchanged. -/
def ixml_md_update (data : List Nat) (m : Metadata) : Metadata :=
  if 60 ∈ data ∧ 62 ∈ data then
    match fromstringModel data with
    | .ok root => ixml_fields root m
    | .error _ => m
  else m

/-- Model of `WavMetadata._process_ixml_chunk`, as the pair of its stream
effect (consuming `size` bytes) and its record effect. -/
def process_ixml_chunk (s : ByteStream) (size : Nat) (m : Metadata) :
    ByteStream × Metadata :=
  ((bread s size).2, ixml_md_update (bread s size).1 m)

/-- The regex pass `_process_info_chunk` applies to an `ISBJ`/`ICMT`
sub-record text (lines 492–514): the assigned value is `group(1).strip()`,
and each assignment is guarded (`if match and not metadata[k]`). -/
def info_apply_text (txt : String) (m : Metadata) : Metadata :=
  let tl := txt.data
  let m := setShow ((searchL matchShowAt tl).map pyStrip) m
  let m := setCategory ((searchL matchCatLabelAt tl).map pyStrip) m
  let m := setSubcategory ((searchL matchSubcatLabelAt tl).map pyStrip) m
  m

/-- The text of one INFO sub-record (line 486–487): the `list_size` bytes
after the 8-byte sub-header, truncated at the first NUL, decoded with
errors ignored, stripped. -/
def info_sub_text (data : List Nat) (pos len : Nat) : String :=
  pyStrip (decodeIgnore ((pySlice (pos + 8) (pos + 8 + len) data).takeWhile (· ≠ 0)))

/-- The record effect of one INFO sub-record (lines 492–514): only `ISBJ`
and `ICMT` records are scanned. -/
def info_step_md (data : List Nat) (pos len : Nat) (m : Metadata) : Metadata :=
  if pySlice pos (pos + 4) data = isbjId ∨ pySlice pos (pos + 4) data = icmtId then
    info_apply_text (info_sub_text data pos len) m
  else m

/-- One iteration of the `_process_info_chunk` sub-record loop (lines
477–526), entered with the loop condition already checked: `none` models the
`break` paths (a `struct.error` on a short size field, or a zero or
out-of-bounds declared length); `some` returns the new position and record. -/
def info_step (data : List Nat) (pos : Nat) (m : Metadata) :
    Option (Nat × Metadata) :=
  let sizeBytes := pySlice (pos + 4) (pos + 8) data
  if sizeBytes.length < 4 then none
  else
    let listSize := le32 sizeBytes
    if 0 < listSize ∧ pos + 8 + listSize ≤ data.length then
      some (pos + 8 + listSize + (if listSize % 2 = 1 then 1 else 0),
        info_step_md data pos listSize m)
    else none

/-- Fuelled sub-record walk of `_process_info_chunk`; each genuine iteration
advances the position by at least 9, so `data.length + 1` fuel is plentiful. -/
def info_loop : Nat → List Nat → Nat → Metadata → Metadata
  | 0, _, _, m => m
  | fuel + 1, data, pos, m =>
    if pos < data.length - 8 then
      match info_step data pos m with
      | none => m
      | some (pos2, m2) => info_loop fuel data pos2 m2
    else m

/-- The record effect of `WavMetadata._process_info_chunk` (lines 467–529)
on its payload. -/
def info_md_update (data : List Nat) (m : Metadata) : Metadata :=
  info_loop (data.length + 1) data 0 m

/-- Model of `WavMetadata._process_info_chunk`, as the pair of its stream
effect (consuming `size` bytes) and its record effect. -/
def process_info_chunk (s : ByteStream) (size : Nat) (m : Metadata) :
    ByteStream × Metadata :=
  ((bread s size).2, info_md_update (bread s size).1 m)

/-! ## The RIFF chunk walker (`WavMetadata._dump_all_wav_chunks`) -/

/-- The dispatch of one chunk (lines 263–272): `bext`, `iXML` and `INFO`
chunks go to their extractor, every other chunk ID is skipped by seeking
past its declared size. -/
def dispatch_chunk (cid : List Nat) (s : ByteStream) (size : Nat) (m : Metadata) :
    ByteStream × Metadata :=
  if cid = bextId then process_bext_chunk s size m
  else if cid = ixmlId then process_ixml_chunk s size m
  else if cid = infoId then process_info_chunk s size m
  else (bseek s size, m)

/-- The chunk loop of `_dump_all_wav_chunks` (lines 250–276): read an 8-byte
header (a short read terminates the walk), dispatch the chunk, then skip the
pad byte when the declared size is odd. -/
def chunk_loop : Nat → ByteStream → Metadata → Metadata
  | 0, _, m => m
  | fuel + 1, s, m =>
    let cid := (bread s 4).1
    let s1 := (bread s 4).2
    if cid.length < 4 then m
    else
      let szb := (bread s1 4).1
      let s2 := (bread s1 4).2
      if szb.length < 4 then m
      else
        let size := le32 szb
        let sm := dispatch_chunk cid s2 size m
        let s3 := if size % 2 = 1 then bseek sm.1 1 else sm.1
        chunk_loop fuel s3 sm.2

/-- Model of `WavMetadata._dump_all_wav_chunks` (lines 230–282): check the
`RIFF` magic, skip the file size, check the `WAVE` magic, then walk chunks.
A magic mismatch (including a short file) returns the record unchanged. -/
def dump_all_wav_chunks (content : List Nat) (m : Metadata) : Metadata :=
  let s0 : ByteStream := ⟨content, 0⟩
  if (bread s0 4).1 ≠ riffId then m
  else
    let s2 := bseek (bread s0 4).2 4
    if (bread s2 4).1 ≠ waveId then m
    else chunk_loop (content.length + 1) (bread s2 4).2 m

/-! ## The `wavinfo` oracle model

`WavInfoReader` and the objects it hands back are an external library; the
model quantifies over their behaviour.  Attribute access (`hasattr` /
`getattr` / dictionary `in`) is an association list; a missing key models a
missing attribute, and an empty string models a falsy value. -/

/-- The `wav_info.bext` object: its readable string attributes. -/
structure BextObj where
  attrs : List (String × String)
deriving DecidableEq, Repr

/-- The `wav_info.ixml` object. `truthy` is the Python truth value of the
object, `hasToDict` whether `to_dict` exists, `toDict` what calling it does
(raise, return `None`, or return a dictionary), and `raw` the byte content
when the object is `str`/`bytes` (`none` when it is some other object, in
which case the `isinstance` checks of method 2 fail). -/
structure IxmlObj where
  truthy : Bool
  hasToDict : Bool
  attrs : List (String × String)
  toDict : Except String (Option (List (String × String)))
  raw : Option (List Nat)
deriving Repr

/-- The `WavInfoReader` result: which of `bext`/`ixml` exist as attributes. -/
structure WavInfo where
  bext : Option BextObj
  ixml : Option IxmlObj
deriving Repr

/-- Model of `hasattr(o, name) and getattr(o, name)` being truthy, returning
the attribute value. -/
def getattr_truthy (attrs : List (String × String)) (name : String) : Option String :=
  match attrs.lookup name with
  | some v => if v = "" then none else some v
  | none => none

/-- One field of the variation-scan loops (lines 84–93, 136–145, 159–168):
first name whose value is truthy and strips to a nonempty string wins. -/
def try_variations (attrs : List (String × String)) (vars : List String) : Option String :=
  vars.findSome? fun f =>
    match getattr_truthy attrs f with
    | some v => let w := pyStrip v; if w = "" then none else some w
    | none => none

/-- Variation lists of `bext_field_map` (lines 68–72). -/
def showVars : List String :=
  ["show", "Show", "SHOW", "program", "Program", "PROGRAM", "series", "Series", "SERIES"]

/-- Scene variations of `bext_field_map`. -/
def sceneVars : List String :=
  ["scene", "Scene", "SCENE", "scn", "SCN", "SceneNumber", "SCENE_NUMBER", "scene_number"]

/-- Take variations of `bext_field_map`. -/
def takeVars : List String :=
  ["take", "Take", "TAKE", "tk", "TK", "TakeNumber", "TAKE_NUMBER", "take_number"]

/-- Variation lists of `ixml_field_map` (lines 116–121). -/
def categoryVars : List String :=
  ["CATEGORY", "Category", "category", "TYPE", "Type", "type", "KIND", "Kind", "kind"]

/-- Subcategory variations of `ixml_field_map`. -/
def subcategoryVars : List String :=
  ["SUBCATEGORY", "Subcategory", "subcategory", "SUBTYPE", "Subtype", "subtype",
   "SUBKIND", "Subkind", "subkind"]

/-- Note variations of `ixml_field_map`. -/
def noteVars : List String :=
  ["NOTE", "Note", "note", "COMMENT", "Comment", "comment",
   "DESCRIPTION", "Description", "description"]

/-- Circled variations of `ixml_field_map`. -/
def circledVars : List String :=
  ["CIRCLED", "Circled", "circled", "SLATE", "Slate", "slate",
   "GOOD_TAKE", "GoodTake", "goodtake"]

/-- The `bext_field_map` scan of `read_metadata` (lines 80–93): Show, Scene,
Take in insertion order, each guarded on the field being empty. -/
def bext_field_phase (b : BextObj) (m : Metadata) : Metadata :=
  let m := setShow (try_variations b.attrs showVars) m
  let m := setScene (try_variations b.attrs sceneVars) m
  let m := setTake (try_variations b.attrs takeVars) m
  m

/-- The BEXT-description special handling of `read_metadata` (lines 96–113):
when `bext.description` is truthy, search the stripped text with the combined
scene/take pattern, each assignment guarded. -/
def bext_description_phase (b : BextObj) (m : Metadata) : Metadata :=
  match getattr_truthy b.attrs "description" with
  | some d =>
    let o := searchL matchSceneTakeAt (pyStrip d).data
    setTake (o.map Prod.snd) (setScene (o.map Prod.fst) m)
  | none => m

/-- The attribute/dictionary scan of iXML method 1 (lines 132–145 and
155–168 share this shape): Category, Subcategory, Note, Circled in
insertion order, each guarded. -/
def ixml_attr_phase (attrs : List (String × String)) (m : Metadata) : Metadata :=
  let m := setCategory (try_variations attrs categoryVars) m
  let m := setSubcategory (try_variations attrs subcategoryVars) m
  let m := setNote (try_variations attrs noteVars) m
  let m := setCircled (try_variations attrs circledVars) m
  m

/-- Method 1 of the iXML section (lines 129–175): the direct-attribute scan,
then `to_dict`; a raised exception or a `None` dictionary leaves the record
as the direct scan produced it, and a dictionary is scanned with the same
variation lists. -/
def ixml_method1 (x : IxmlObj) (m : Metadata) : Metadata :=
  let m := ixml_attr_phase x.attrs m
  match x.toDict with
  | .error _ => m
  | .ok none => m
  | .ok (some d) => ixml_attr_phase d m

/-- Method 2 of the iXML section (lines 177–224): only runs when the object
is `bytes`/`str`; parses the payload as XML when it contains `<`, then runs
four guarded single-tag searches (`safe_find_text`). -/
def ixml_method2 (x : IxmlObj) (m : Metadata) : Metadata :=
  match x.raw with
  | some bytes =>
    if 60 ∈ bytes then
      match fromstringModel bytes with
      | .ok root =>
        let m := setCategory (optTruthy (find_element_text root [["CATEGORY"]])) m
        let m := setSubcategory (optTruthy (find_element_text root [["SUBCATEGORY"]])) m
        let m := setNote (optTruthy (find_element_text root [["NOTE"]])) m
        let m := setCircled (optTruthy (find_element_text root [["CIRCLED"]])) m
        m
      | .error _ => m
    else m
  | none => m

/-- The iXML section of `read_metadata` (lines 124–224): method 1 when the
object is truthy and has `to_dict`, otherwise (`elif ixml:`) method 2 when
the object is truthy. -/
def ixml_section (x : IxmlObj) (m : Metadata) : Metadata :=
  if x.truthy && x.hasToDict then ixml_method1 x m
  else if x.truthy then ixml_method2 x m
  else m

/-- The whole `wavinfo` fallback of `read_metadata` (lines 66–227): the BEXT
scans when a `bext` attribute exists, then the iXML section when an `ixml`
attribute exists. -/
def wavinfo_phase (wi : WavInfo) (m : Metadata) : Metadata :=
  let m := match wi.bext with
    | some b => bext_description_phase b (bext_field_phase b m)
    | none => m
  match wi.ixml with
  | some x => ixml_section x m
  | none => m

/-- Model of `WavMetadata.read_metadata` (lines 38–228): the fresh record,
the raw chunk walk, then the `wavinfo` fallback.  Every internal failure is
caught inside, so the function is total and never touches `Error`. -/
def read_metadata (content : List Nat) (path : String) (wi : WavInfo) : Metadata :=
  wavinfo_phase wi (dump_all_wav_chunks content (init_metadata path))

/-! ## The public read operation (`read_wav_metadata`, lines 577–614) -/

/-- The file-system state of the path being read. -/
structure FileSys where
  fexists : Bool
  readable : Bool
  content : List Nat
deriving DecidableEq, Repr

/-- The external-library behaviour for one call: what `WavInfoReader(path)`
does (raise or return a reader object). -/
structure ReadEnv where
  wavInfo : Except String WavInfo
deriving Repr

/-- The body of `read_wav_metadata` before its exception handler: each
`raise` is an `Except.error` carrying the exception text together with the
metadata state at the point of failure (the ghost component: every failure
happens before `read_metadata` has populated anything, so that state is the
fresh record). -/
def read_wav_metadata_ex (env : ReadEnv) (fs : FileSys) (path : String)
    (_debug : Bool) : Except (String × Metadata) Metadata :=
  if ¬ fs.fexists then .error ("File not found: " ++ path, init_metadata path)
  else if ¬ fs.readable then .error ("Cannot read file: " ++ path, init_metadata path)
  else if fs.content.length < 44 then
    .error ("File too small to be a valid WAV file: " ++ path, init_metadata path)
  else
    match env.wavInfo with
    | .error e => .error (e, init_metadata path)
    | .ok wi => .ok (read_metadata fs.content path wi)

/-- Model of `read_wav_metadata` (lines 577–614): run the body; any raised
exception is caught and turned into an all-default record whose `Error`
field is the exception text. -/
def read_wav_metadata (env : ReadEnv) (fs : FileSys) (path : String)
    (debug : Bool) : Metadata :=
  match read_wav_metadata_ex env fs path debug with
  | .ok m => m
  | .error (e, _) => error_record path e

/-! ## The public write operation (`write_wav_metadata`, lines 617–688)

Only the file-system effects matter to the claims about the writer; the
sound-file library is an oracle (`sfRead`: what decoding the source file
does), and the XML document built for the diagnostic printout has no
file-system effect.  The file system is a map from paths to contents. -/

/-- A flat file system: each path either holds a byte content or no file. -/
def FS : Type := String → Option (List Nat)

/-- Create or overwrite a file. -/
def FS.fwrite (fs : FS) (p : String) (c : List Nat) : FS :=
  fun q => if q = p then some c else fs q

/-- Model of `os.unlink`. -/
def FS.fdel (fs : FS) (p : String) : FS :=
  fun q => if q = p then none else fs q

/-- Model of `shutil.copy2(src, dst)`: copies the current content of `src`,
raising when `src` does not exist. -/
def FS.fcopy (fs : FS) (src dst : String) : Except String FS :=
  match fs src with
  | some c => .ok (fs.fwrite dst c)
  | none => .error ("No such file or directory: " ++ src)

/-- The temp-file cleanup of the exception handler (lines 686–687):
`if os.path.exists(temp): os.unlink(temp)`. -/
def FS.fcleanup (fs : FS) (p : String) : FS :=
  if (fs p).isSome then fs.fdel p else fs

/-- External behaviour for one `write_wav_metadata` call: the fresh
`NamedTemporaryFile` path, what decoding `file_path` through `soundfile`
does (the re-encoded audio bytes, or a raised exception), and what
`WavMetadata(file_path)`'s `WavInfoReader` constructor does. -/
structure WriteEnv where
  tempPath : String
  sfRead : Except String (List Nat)
  wavChk : Except String Unit

/-- Model of `write_wav_metadata` (lines 617–688): create the temp file,
decode and re-encode the audio into it, back up the original to
`{path}.bak` only when that path holds no file, replace the original with
the temp file, delete the temp file.  Any raised exception deletes the temp
file (when it exists) and propagates. -/
def write_wav_metadata (env : WriteEnv) (fs : FS) (path : String)
    (_md : Metadata) : FS × Except String Bool :=
  let tmp := env.tempPath
  let fs1 := fs.fwrite tmp []
  match env.sfRead with
  | .error e => (fs1.fcleanup tmp, .error e)
  | .ok audio =>
    let fs2 := fs1.fwrite tmp audio
    match env.wavChk with
    | .error e => (fs2.fcleanup tmp, .error e)
    | .ok _ =>
      let bak := path ++ ".bak"
      let backedUp : Except String FS :=
        if (fs2 bak).isSome then .ok fs2 else fs2.fcopy path bak
      match backedUp with
      | .error e => (fs2.fcleanup tmp, .error e)
      | .ok fs3 =>
        match fs3.fcopy tmp path with
        | .error e => (fs3.fcleanup tmp, .error e)
        | .ok fs4 => (fs4.fdel tmp, .ok true)

/-! ## First-found-wins: the guarded setters never overwrite

`FMono g` says the transformation `g` leaves every already-populated
extractable field unchanged; `EPres g` says it never touches `Error`.
Both are closed under composition, and every extractor phase satisfies
both. -/

/-- A record transformation that never overwrites a populated field. -/
def FMono (g : Metadata → Metadata) : Prop :=
  ∀ m f, getF f m ≠ "" → getF f (g m) = getF f m

/-- A record transformation that never touches `Error`. -/
def EPres (g : Metadata → Metadata) : Prop :=
  ∀ m, (g m).Error = m.Error

theorem FMono_comp {g1 g2 : Metadata → Metadata} (H1 : FMono g1) (H2 : FMono g2) :
    FMono (fun m => g2 (g1 m)) := fun m f h =>
  (H2 (g1 m) f (ne_of_eq_of_ne (H1 m f h) h)).trans (H1 m f h)

theorem EPres_comp {g1 g2 : Metadata → Metadata} (H1 : EPres g1) (H2 : EPres g2) :
    EPres (fun m => g2 (g1 m)) := fun m => (H2 (g1 m)).trans (H1 m)

theorem setShow_fmono (v : Option String) : FMono (setShow v) := by
  intro m f h
  cases f <;> cases v <;> simp only [setShow, getF] at h ⊢ <;> split <;> simp_all

theorem setScene_fmono (v : Option String) : FMono (setScene v) := by
  intro m f h
  cases f <;> cases v <;> simp only [setScene, getF] at h ⊢ <;> split <;> simp_all

theorem setTake_fmono (v : Option String) : FMono (setTake v) := by
  intro m f h
  cases f <;> cases v <;> simp only [setTake, getF] at h ⊢ <;> split <;> simp_all

theorem setCategory_fmono (v : Option String) : FMono (setCategory v) := by
  intro m f h
  cases f <;> cases v <;> simp only [setCategory, getF] at h ⊢ <;> split <;> simp_all

theorem setSubcategory_fmono (v : Option String) : FMono (setSubcategory v) := by
  intro m f h
  cases f <;> cases v <;> simp only [setSubcategory, getF] at h ⊢ <;> split <;> simp_all

theorem setNote_fmono (v : Option String) : FMono (setNote v) := by
  intro m f h
  cases f <;> cases v <;> simp only [setNote, getF] at h ⊢ <;> split <;> simp_all

theorem setCircled_fmono (v : Option String) : FMono (setCircled v) := by
  intro m f h
  cases f <;> cases v <;> simp only [setCircled, getF] at h ⊢ <;> split <;> simp_all

theorem setShow_epres (v : Option String) : EPres (setShow v) := by
  intro m; cases v <;> simp only [setShow] <;> split <;> rfl

theorem setScene_epres (v : Option String) : EPres (setScene v) := by
  intro m; cases v <;> simp only [setScene] <;> split <;> rfl

theorem setTake_epres (v : Option String) : EPres (setTake v) := by
  intro m; cases v <;> simp only [setTake] <;> split <;> rfl

theorem setCategory_epres (v : Option String) : EPres (setCategory v) := by
  intro m; cases v <;> simp only [setCategory] <;> split <;> rfl

theorem setSubcategory_epres (v : Option String) : EPres (setSubcategory v) := by
  intro m; cases v <;> simp only [setSubcategory] <;> split <;> rfl

theorem setNote_epres (v : Option String) : EPres (setNote v) := by
  intro m; cases v <;> simp only [setNote] <;> split <;> rfl

theorem setCircled_epres (v : Option String) : EPres (setCircled v) := by
  intro m; cases v <;> simp only [setCircled] <;> split <;> rfl

theorem bext_regex_phase_fmono (j : List Char) : FMono (bext_regex_phase j) := by
  intro m f h
  exact FMono_comp (FMono_comp (FMono_comp (FMono_comp
    (setShow_fmono _) (setScene_fmono _)) (setTake_fmono _))
    (setScene_fmono _)) (setTake_fmono _) m f h

theorem bext_regex_phase_epres (j : List Char) : EPres (bext_regex_phase j) := by
  intro m
  exact EPres_comp (EPres_comp (EPres_comp (EPres_comp
    (setShow_epres _) (setScene_epres _)) (setTake_epres _))
    (setScene_epres _)) (setTake_epres _) m

theorem ixml_fields_fmono (root : XmlNode) : FMono (ixml_fields root) := by
  intro m f h
  exact FMono_comp (FMono_comp (FMono_comp (FMono_comp (FMono_comp (FMono_comp
    (setShow_fmono _) (setScene_fmono _)) (setTake_fmono _)) (setCategory_fmono _))
    (setSubcategory_fmono _)) (setNote_fmono _)) (setCircled_fmono _) m f h

theorem ixml_fields_epres (root : XmlNode) : EPres (ixml_fields root) := by
  intro m
  exact EPres_comp (EPres_comp (EPres_comp (EPres_comp (EPres_comp (EPres_comp
    (setShow_epres _) (setScene_epres _)) (setTake_epres _)) (setCategory_epres _))
    (setSubcategory_epres _)) (setNote_epres _)) (setCircled_epres _) m

theorem info_apply_text_fmono (txt : String) : FMono (info_apply_text txt) := by
  intro m f h
  exact FMono_comp (FMono_comp
    (setShow_fmono _) (setCategory_fmono _)) (setSubcategory_fmono _) m f h

theorem info_apply_text_epres (txt : String) : EPres (info_apply_text txt) := by
  intro m
  exact EPres_comp (EPres_comp
    (setShow_epres _) (setCategory_epres _)) (setSubcategory_epres _) m

theorem process_bext_chunk_fmono (s : ByteStream) (size : Nat) :
    FMono (fun m => (process_bext_chunk s size m).2) := by
  intro m f h
  simp only [process_bext_chunk]
  exact bext_regex_phase_fmono _ m f h

theorem process_bext_chunk_epres (s : ByteStream) (size : Nat) :
    EPres (fun m => (process_bext_chunk s size m).2) := by
  intro m
  simp only [process_bext_chunk]
  exact bext_regex_phase_epres _ m

theorem ixml_md_update_fmono (data : List Nat) : FMono (ixml_md_update data) := by
  intro m f h
  simp only [ixml_md_update]
  split
  · split
    · exact ixml_fields_fmono _ m f h
    · rfl
  · rfl

theorem ixml_md_update_epres (data : List Nat) : EPres (ixml_md_update data) := by
  intro m
  simp only [ixml_md_update]
  split
  · split
    · exact ixml_fields_epres _ m
    · rfl
  · rfl

theorem info_step_md_fmono (data : List Nat) (pos len : Nat) :
    FMono (info_step_md data pos len) := by
  intro m f h
  simp only [info_step_md]
  split
  · exact info_apply_text_fmono _ m f h
  · rfl

theorem info_step_md_epres (data : List Nat) (pos len : Nat) :
    EPres (info_step_md data pos len) := by
  intro m
  simp only [info_step_md]
  split
  · exact info_apply_text_epres _ m
  · rfl

theorem info_step_eq (data : List Nat) (pos : Nat) (m : Metadata) :
    info_step data pos m = none ∨
    ((pySlice (pos + 4) (pos + 8) data).length = 4 ∧
      0 < le32 (pySlice (pos + 4) (pos + 8) data) ∧
      pos + 8 + le32 (pySlice (pos + 4) (pos + 8) data) ≤ data.length ∧
      info_step data pos m =
        some (pos + 8 + le32 (pySlice (pos + 4) (pos + 8) data) +
              (if le32 (pySlice (pos + 4) (pos + 8) data) % 2 = 1 then 1 else 0),
          info_step_md data pos (le32 (pySlice (pos + 4) (pos + 8) data)) m)) := by
  simp only [info_step]
  split
  · exact Or.inl rfl
  · split
    · rename_i h1 h2
      refine Or.inr ⟨?_, h2.1, h2.2, rfl⟩
      have hle : (pySlice (pos + 4) (pos + 8) data).length ≤ 4 := by
        simp [pySlice]
      omega
    · exact Or.inl rfl

theorem info_loop_fmono (fuel : Nat) :
    ∀ (data : List Nat) (pos : Nat), FMono (info_loop fuel data pos) := by
  induction fuel with
  | zero => intro data pos m f h; rfl
  | succ n ih =>
    intro data pos m f h
    rw [info_loop]
    split
    · rcases info_step_eq data pos m with he | ⟨_, _, _, he⟩
      · rw [he]
      · rw [he]
        have hm2 := info_step_md_fmono data pos
          (le32 (pySlice (pos + 4) (pos + 8) data)) m f h
        exact (ih data _ _ f (ne_of_eq_of_ne hm2 h)).trans hm2
    · rfl

theorem info_loop_epres (fuel : Nat) :
    ∀ (data : List Nat) (pos : Nat), EPres (info_loop fuel data pos) := by
  induction fuel with
  | zero => intro data pos m; rfl
  | succ n ih =>
    intro data pos m
    rw [info_loop]
    split
    · rcases info_step_eq data pos m with he | ⟨_, _, _, he⟩
      · rw [he]
      · rw [he]
        exact (ih data _ _).trans (info_step_md_epres data pos _ m)
    · rfl

theorem process_info_chunk_fmono (s : ByteStream) (size : Nat) :
    FMono (fun m => (process_info_chunk s size m).2) := by
  intro m f h
  simp only [process_info_chunk]
  exact info_loop_fmono _ _ _ m f h

theorem process_info_chunk_epres (s : ByteStream) (size : Nat) :
    EPres (fun m => (process_info_chunk s size m).2) := by
  intro m
  simp only [process_info_chunk]
  exact info_loop_epres _ _ _ m

theorem process_ixml_chunk_fmono (s : ByteStream) (size : Nat) :
    FMono (fun m => (process_ixml_chunk s size m).2) := by
  intro m f h
  simp only [process_ixml_chunk]
  exact ixml_md_update_fmono _ m f h

theorem process_ixml_chunk_epres (s : ByteStream) (size : Nat) :
    EPres (fun m => (process_ixml_chunk s size m).2) := by
  intro m
  simp only [process_ixml_chunk]
  exact ixml_md_update_epres _ m

theorem dispatch_chunk_fmono (cid : List Nat) (s : ByteStream) (size : Nat) :
    FMono (fun m => (dispatch_chunk cid s size m).2) := by
  intro m f h
  simp only [dispatch_chunk]
  split
  · exact process_bext_chunk_fmono _ _ m f h
  · split
    · exact process_ixml_chunk_fmono _ _ m f h
    · split
      · exact process_info_chunk_fmono _ _ m f h
      · rfl

theorem dispatch_chunk_epres (cid : List Nat) (s : ByteStream) (size : Nat) :
    EPres (fun m => (dispatch_chunk cid s size m).2) := by
  intro m
  simp only [dispatch_chunk]
  split
  · exact process_bext_chunk_epres _ _ m
  · split
    · exact process_ixml_chunk_epres _ _ m
    · split
      · exact process_info_chunk_epres _ _ m
      · rfl

theorem chunk_loop_fmono (fuel : Nat) : ∀ (s : ByteStream), FMono (chunk_loop fuel s) := by
  induction fuel with
  | zero => intro s m f h; rfl
  | succ n ih =>
    intro s m f h
    simp only [chunk_loop]
    split
    · rfl
    · split
      · rfl
      · have hd := dispatch_chunk_fmono (bread s 4).1 (bread (bread s 4).2 4).2
          (le32 (bread (bread s 4).2 4).1) m f h
        exact (ih _ _ f (ne_of_eq_of_ne hd h)).trans hd

theorem chunk_loop_epres (fuel : Nat) : ∀ (s : ByteStream), EPres (chunk_loop fuel s) := by
  induction fuel with
  | zero => intro s m; rfl
  | succ n ih =>
    intro s m
    simp only [chunk_loop]
    split
    · rfl
    · split
      · rfl
      · exact (ih _ _).trans (dispatch_chunk_epres (bread s 4).1 (bread (bread s 4).2 4).2
          (le32 (bread (bread s 4).2 4).1) m)

theorem dump_all_wav_chunks_fmono (content : List Nat) : FMono (dump_all_wav_chunks content) := by
  intro m f h
  simp only [dump_all_wav_chunks]
  split
  · rfl
  · split
    · rfl
    · exact chunk_loop_fmono _ _ m f h

theorem dump_all_wav_chunks_epres (content : List Nat) : EPres (dump_all_wav_chunks content) := by
  intro m
  simp only [dump_all_wav_chunks]
  split
  · rfl
  · split
    · rfl
    · exact chunk_loop_epres _ _ m

theorem bext_field_phase_fmono (b : BextObj) : FMono (bext_field_phase b) := by
  intro m f h
  exact FMono_comp (FMono_comp
    (setShow_fmono _) (setScene_fmono _)) (setTake_fmono _) m f h

theorem bext_field_phase_epres (b : BextObj) : EPres (bext_field_phase b) := by
  intro m
  exact EPres_comp (EPres_comp
    (setShow_epres _) (setScene_epres _)) (setTake_epres _) m

theorem bext_description_phase_fmono (b : BextObj) : FMono (bext_description_phase b) := by
  intro m f h
  simp only [bext_description_phase]
  split
  · exact FMono_comp (setScene_fmono _) (setTake_fmono _) m f h
  · rfl

theorem bext_description_phase_epres (b : BextObj) : EPres (bext_description_phase b) := by
  intro m
  simp only [bext_description_phase]
  split
  · exact EPres_comp (setScene_epres _) (setTake_epres _) m
  · rfl

theorem ixml_attr_phase_fmono (attrs : List (String × String)) :
    FMono (ixml_attr_phase attrs) := by
  intro m f h
  exact FMono_comp (FMono_comp (FMono_comp
    (setCategory_fmono _) (setSubcategory_fmono _)) (setNote_fmono _))
    (setCircled_fmono _) m f h

theorem ixml_attr_phase_epres (attrs : List (String × String)) :
    EPres (ixml_attr_phase attrs) := by
  intro m
  exact EPres_comp (EPres_comp (EPres_comp
    (setCategory_epres _) (setSubcategory_epres _)) (setNote_epres _))
    (setCircled_epres _) m

theorem ixml_method1_fmono (x : IxmlObj) : FMono (ixml_method1 x) := by
  intro m f h
  simp only [ixml_method1]
  split
  · exact ixml_attr_phase_fmono _ m f h
  · exact ixml_attr_phase_fmono _ m f h
  · exact FMono_comp (ixml_attr_phase_fmono x.attrs) (ixml_attr_phase_fmono _) m f h

theorem ixml_method1_epres (x : IxmlObj) : EPres (ixml_method1 x) := by
  intro m
  simp only [ixml_method1]
  split
  · exact ixml_attr_phase_epres _ m
  · exact ixml_attr_phase_epres _ m
  · exact EPres_comp (ixml_attr_phase_epres x.attrs) (ixml_attr_phase_epres _) m

theorem ixml_method2_fmono (x : IxmlObj) : FMono (ixml_method2 x) := by
  intro m f h
  simp only [ixml_method2]
  split
  · split
    · split
      · exact FMono_comp (FMono_comp (FMono_comp
          (setCategory_fmono _) (setSubcategory_fmono _)) (setNote_fmono _))
          (setCircled_fmono _) m f h
      · rfl
    · rfl
  · rfl

theorem ixml_method2_epres (x : IxmlObj) : EPres (ixml_method2 x) := by
  intro m
  simp only [ixml_method2]
  split
  · split
    · split
      · exact EPres_comp (EPres_comp (EPres_comp
          (setCategory_epres _) (setSubcategory_epres _)) (setNote_epres _))
          (setCircled_epres _) m
      · rfl
    · rfl
  · rfl

theorem ixml_section_fmono (x : IxmlObj) : FMono (ixml_section x) := by
  intro m f h
  simp only [ixml_section]
  split
  · exact ixml_method1_fmono x m f h
  · split
    · exact ixml_method2_fmono x m f h
    · rfl

theorem ixml_section_epres (x : IxmlObj) : EPres (ixml_section x) := by
  intro m
  simp only [ixml_section]
  split
  · exact ixml_method1_epres x m
  · split
    · exact ixml_method2_epres x m
    · rfl

theorem wavinfo_phase_fmono (wi : WavInfo) : FMono (wavinfo_phase wi) := by
  intro m f h
  simp only [wavinfo_phase]
  have hb : ∀ m2 : Metadata, getF f m2 ≠ "" →
      getF f (match wi.bext with
        | some b => bext_description_phase b (bext_field_phase b m2)
        | none => m2) = getF f m2 := by
    intro m2 h2
    cases wi.bext with
    | none => rfl
    | some b =>
      exact FMono_comp (bext_field_phase_fmono b) (bext_description_phase_fmono b) m2 f h2
  have h1 := hb m h
  cases wi.ixml with
  | none => exact h1
  | some x => exact (ixml_section_fmono x _ f (ne_of_eq_of_ne h1 h)).trans h1

theorem wavinfo_phase_epres (wi : WavInfo) : EPres (wavinfo_phase wi) := by
  intro m
  simp only [wavinfo_phase]
  have hb : ∀ m2 : Metadata,
      (match wi.bext with
        | some b => bext_description_phase b (bext_field_phase b m2)
        | none => m2).Error = m2.Error := by
    intro m2
    cases wi.bext with
    | none => rfl
    | some b => exact EPres_comp (bext_field_phase_epres b) (bext_description_phase_epres b) m2
  cases wi.ixml with
  | none => exact hb m
  | some x => exact (ixml_section_epres x _).trans (hb m)

/-- The record a successful read hands back never carries an `Error`. -/
theorem read_metadata_error_none (content : List Nat) (path : String) (wi : WavInfo) :
    (read_metadata content path wi).Error = none := by
  simp only [read_metadata]
  rw [wavinfo_phase_epres, dump_all_wav_chunks_epres]
  rfl

/-! ## Claim theorems -/

/-- C1: for every file path, file-system state, library behaviour and debug
flag, the public read operation returns a `Metadata` record and never
propagates an exception: the result is either a record produced by
extraction with no `Error`, or the all-default record carrying the caught
exception text in `Error`.  (In the embedding, every internal exception is
an `Except.error` of `read_wav_metadata_ex`, and `read_wav_metadata`
catches all of them; totality of the Lean function is the never-raise
contract.) -/
theorem C1_read_never_raises (env : ReadEnv) (fs : FileSys) (path : String)
    (debug : Bool) :
    (read_wav_metadata env fs path debug).Error = none ∨
    ∃ e, read_wav_metadata env fs path debug = error_record path e := by
  unfold read_wav_metadata read_wav_metadata_ex
  split
  · rename_i m heq
    left
    split at heq
    · exact absurd heq (by simp)
    · split at heq
      · exact absurd heq (by simp)
      · split at heq
        · exact absurd heq (by simp)
        · split at heq
          · exact absurd heq (by simp)
          · rw [← Except.ok.inj heq]
            exact read_metadata_error_none _ _ _
  · exact Or.inr ⟨_, rfl⟩

/-- C3: the precondition checks of `read_wav_metadata` run in order and each
produces its own error text in the `Error` field of the returned record:
"File not found" when the path does not exist, "Cannot read file" when it
exists but is unreadable, "File too small to be a valid WAV file" when it is
shorter than 44 bytes; and the three texts are pairwise distinct. -/
theorem C3_precondition_errors (env : ReadEnv) (fs : FileSys) (path : String)
    (debug : Bool) :
    (fs.fexists = false →
      read_wav_metadata env fs path debug =
        error_record path ("File not found: " ++ path)) ∧
    (fs.fexists = true → fs.readable = false →
      read_wav_metadata env fs path debug =
        error_record path ("Cannot read file: " ++ path)) ∧
    (fs.fexists = true → fs.readable = true → fs.content.length < 44 →
      read_wav_metadata env fs path debug =
        error_record path ("File too small to be a valid WAV file: " ++ path)) ∧
    ("File not found: " ++ path ≠ "Cannot read file: " ++ path) ∧
    ("File not found: " ++ path ≠ "File too small to be a valid WAV file: " ++ path) ∧
    ("Cannot read file: " ++ path ≠ "File too small to be a valid WAV file: " ++ path) := by
  refine ⟨?_, ?_, ?_, ?_, ?_, ?_⟩
  · intro h1
    simp [read_wav_metadata, read_wav_metadata_ex, h1]
  · intro h1 h2
    simp [read_wav_metadata, read_wav_metadata_ex, h1, h2]
  · intro h1 h2 h3
    simp [read_wav_metadata, read_wav_metadata_ex, h1, h2, h3]
  · intro h
    have := congrArg String.length h
    simp [String.length_append] at this
    revert this
    decide
  · intro h
    have := congrArg String.length h
    simp [String.length_append] at this
    revert this
    decide
  · intro h
    have := congrArg String.length h
    simp [String.length_append] at this
    revert this
    decide

/-- Witness for C3 at concrete inputs: one file system per precondition. -/
theorem C3_precondition_errors_witness :
    (read_wav_metadata ⟨.ok ⟨none, none⟩⟩ ⟨false, true, []⟩ "x" false =
      error_record "x" ("File not found: " ++ "x")) ∧
    (read_wav_metadata ⟨.ok ⟨none, none⟩⟩ ⟨true, false, []⟩ "x" false =
      error_record "x" ("Cannot read file: " ++ "x")) ∧
    (read_wav_metadata ⟨.ok ⟨none, none⟩⟩ ⟨true, true, [0]⟩ "x" false =
      error_record "x" ("File too small to be a valid WAV file: " ++ "x")) :=
  ⟨(C3_precondition_errors ⟨.ok ⟨none, none⟩⟩ ⟨false, true, []⟩ "x" false).1 rfl,
   (C3_precondition_errors ⟨.ok ⟨none, none⟩⟩ ⟨true, false, []⟩ "x" false).2.1 rfl rfl,
   (C3_precondition_errors ⟨.ok ⟨none, none⟩⟩ ⟨true, true, [0]⟩ "x" false).2.2.1 rfl rfl
     (by decide)⟩

/-- C4: whenever the public read operation fails and returns a record with
`Error` set, every metadata field populated at the point of failure is
preserved in the returned record (the embedding's `read_wav_metadata_ex`
carries the metadata state at each raise site as a ghost component; in this
code every `Error`-producing failure happens before extraction begins, so
that state is the fresh record and the returned record agrees with it on
every extractable field). -/
theorem C4_partial_preserved (env : ReadEnv) (fs : FileSys) (path : String)
    (debug : Bool) (e : String) (partial_ : Metadata)
    (h : read_wav_metadata_ex env fs path debug = .error (e, partial_)) :
    (read_wav_metadata env fs path debug).Error = some e ∧
    ∀ f, getF f (read_wav_metadata env fs path debug) = getF f partial_ := by
  have hp : partial_ = init_metadata path ∧
      read_wav_metadata env fs path debug = error_record path e := by
    unfold read_wav_metadata
    rw [h]
    unfold read_wav_metadata_ex at h
    split at h
    · obtain ⟨he, hpp⟩ := Prod.mk.inj (Except.error.inj h)
      exact ⟨hpp.symm, rfl⟩
    · split at h
      · obtain ⟨he, hpp⟩ := Prod.mk.inj (Except.error.inj h)
        exact ⟨hpp.symm, rfl⟩
      · split at h
        · obtain ⟨he, hpp⟩ := Prod.mk.inj (Except.error.inj h)
          exact ⟨hpp.symm, rfl⟩
        · split at h
          · obtain ⟨he, hpp⟩ := Prod.mk.inj (Except.error.inj h)
            exact ⟨hpp.symm, rfl⟩
          · exact absurd h (by simp)
  obtain ⟨hpart, hread⟩ := hp
  rw [hread, hpart]
  refine ⟨rfl, fun f => ?_⟩
  cases f <;> rfl

/-- Witness for C4 at a concrete failing input (a nonexistent path). -/
theorem C4_partial_preserved_witness :
    (read_wav_metadata ⟨.ok ⟨none, none⟩⟩ ⟨false, true, []⟩ "x" false).Error =
      some ("File not found: " ++ "x") ∧
    getF .fScene (read_wav_metadata ⟨.ok ⟨none, none⟩⟩ ⟨false, true, []⟩ "x" false) =
      getF .fScene (init_metadata "x") :=
  ⟨(C4_partial_preserved ⟨.ok ⟨none, none⟩⟩ ⟨false, true, []⟩ "x" false
      ("File not found: " ++ "x") (init_metadata "x") rfl).1,
   (C4_partial_preserved ⟨.ok ⟨none, none⟩⟩ ⟨false, true, []⟩ "x" false
      ("File not found: " ++ "x") (init_metadata "x") rfl).2 .fScene⟩

/-- Synthetic WAV for C2: a `bext` chunk whose description reads `S05T07`,
followed by an `iXML` chunk whose `SCENE` tag reads `99`. -/
def c2File : List Nat :=
  [82, 73, 70, 70, 0, 0, 0, 0, 87, 65, 86, 69,
   98, 101, 120, 116, 6, 0, 0, 0, 83, 48, 53, 84, 48, 55,
   105, 88, 77, 76, 34, 0, 0, 0,
   60, 66, 87, 70, 88, 77, 76, 62, 60, 83, 67, 69, 78, 69, 62, 57, 57,
   60, 47, 83, 67, 69, 78, 69, 62, 60, 47, 66, 87, 70, 88, 77, 76, 62]

/-- The iXML payload of `c2File` alone (`<BWFXML><SCENE>99</SCENE></BWFXML>`). -/
def c2Ixml : List Nat :=
  [60, 66, 87, 70, 88, 77, 76, 62, 60, 83, 67, 69, 78, 69, 62, 57, 57,
   60, 47, 83, 67, 69, 78, 69, 62, 60, 47, 66, 87, 70, 88, 77, 76, 62]

/-- C2: a field populated by an earlier extractor is never overwritten by a
later one — both the chunk walk and the `wavinfo` fallback leave every
already-nonempty field unchanged (every write is guarded on the field being
empty) — and in particular, on a file whose `bext` description encodes
scene `05` while its `iXML` `SCENE` tag encodes `99` (the iXML chunk alone
would yield `99`), the returned Scene is the BEXT-derived `05`. -/
theorem C2_first_found_wins :
    (∀ (content : List Nat) (m : Metadata) (f : MField),
      getF f m ≠ "" → getF f (dump_all_wav_chunks content m) = getF f m) ∧
    (∀ (wi : WavInfo) (m : Metadata) (f : MField),
      getF f m ≠ "" → getF f (wavinfo_phase wi m) = getF f m) ∧
    (ixml_md_update c2Ixml (init_metadata "f.wav")).Scene = "99" ∧
    (read_metadata c2File "f.wav" ⟨none, none⟩).Scene = "05" := by
  exact ⟨fun content => dump_all_wav_chunks_fmono content,
         fun wi => wavinfo_phase_fmono wi, rfl, rfl⟩

/-- Witness for C2's universally quantified parts at concrete inputs: a
record with Scene already set survives both stages unchanged. -/
theorem C2_first_found_wins_witness :
    ((getF .fScene { init_metadata "x" with Scene := "7" } ≠ "") ∧
      getF .fScene (dump_all_wav_chunks c2File { init_metadata "x" with Scene := "7" }) =
        getF .fScene { init_metadata "x" with Scene := "7" }) ∧
    getF .fScene (wavinfo_phase ⟨none, none⟩ { init_metadata "x" with Scene := "7" }) =
      getF .fScene { init_metadata "x" with Scene := "7" } :=
  ⟨⟨by decide,
    C2_first_found_wins.1 c2File { init_metadata "x" with Scene := "7" } .fScene (by decide)⟩,
   C2_first_found_wins.2.1 ⟨none, none⟩ { init_metadata "x" with Scene := "7" } .fScene
     (by decide)⟩

/-- Synthetic WAV for C5: an unknown chunk `junk` of odd size 3 (payload
`abc`, one pad byte), followed by a `bext` chunk whose description reads
`S01T02`. -/
def c5File : List Nat :=
  [82, 73, 70, 70, 0, 0, 0, 0, 87, 65, 86, 69,
   106, 117, 110, 107, 3, 0, 0, 0, 97, 98, 99, 0,
   98, 101, 120, 116, 6, 0, 0, 0, 83, 48, 49, 84, 48, 50]

/-- C5: on a non-delegated chunk whose declared size is odd, one iteration
of the chunk walker advances the stream exactly `8 + size + 1` bytes — the
header, the payload skip, and one pad byte — and on the synthetic file with
an odd-sized unknown chunk before a `bext` chunk, the `bext` chunk is still
located and parsed (Scene/Take extracted from its description). -/
theorem C5_odd_pad_skip :
    (∀ (fuel : Nat) (s : ByteStream) (m : Metadata) (cid szb : List Nat),
      (s.data.drop s.pos).take 8 = cid ++ szb → cid.length = 4 → szb.length = 4 →
      cid ≠ bextId → cid ≠ ixmlId → cid ≠ infoId → le32 szb % 2 = 1 →
      chunk_loop (fuel + 1) s m =
        chunk_loop fuel ⟨s.data, s.pos + (8 + le32 szb + 1)⟩ m) ∧
    (read_metadata c5File "f.wav" ⟨none, none⟩).Scene = "01" ∧
    (read_metadata c5File "f.wav" ⟨none, none⟩).Take = "02" := by
  refine ⟨?_, rfl, rfl⟩
  intro fuel s m cid szb h8 hlc hls hnb hnx hni hodd
  obtain ⟨d, p⟩ := s
  simp only at h8
  have hc : (d.drop p).take 4 = cid := by
    have ht : (d.drop p).take 4 = ((d.drop p).take 8).take 4 := by
      rw [List.take_take]; norm_num
    rw [ht, h8]
    exact List.take_left' hlc
  have hs2 : (d.drop (p + 4)).take 4 = szb := by
    have hd : d.drop (p + 4) = (d.drop p).drop 4 := by
      rw [List.drop_drop]
    have ht : ((d.drop p).drop 4).take 4 = ((d.drop p).take 8).drop 4 := by
      rw [List.drop_take]
    rw [hd, ht, h8]
    exact List.drop_left' hlc
  simp only [chunk_loop, bread, bseek, hc, hlc, hs2, hls]
  rw [if_neg (by omega), if_neg (by omega)]
  simp only [dispatch_chunk, if_neg hnb, if_neg hnx, if_neg hni, bseek, if_pos hodd]
  have harith : p + 4 + 4 + le32 szb + 1 = p + (8 + le32 szb + 1) := by omega
  rw [harith]

/-- Witness for C5's universally quantified part at the `junk` chunk of the
synthetic file (stream positioned at offset 12, declared size 3). -/
theorem C5_odd_pad_skip_witness :
    chunk_loop 2 ⟨c5File, 12⟩ (init_metadata "x") =
      chunk_loop 1 ⟨c5File, 12 + (8 + le32 [3, 0, 0, 0] + 1)⟩ (init_metadata "x") :=
  C5_odd_pad_skip.1 1 ⟨c5File, 12⟩ (init_metadata "x") [106, 117, 110, 107] [3, 0, 0, 0]
    (by decide) (by decide) (by decide) (by decide) (by decide) (by decide) (by decide)

/-- Synthetic WAV for C6: a single `LIST` chunk whose payload is an `ISBJ`
sub-record reading `CATEGORY: Dog`. -/
def c6File : List Nat :=
  [82, 73, 70, 70, 0, 0, 0, 0, 87, 65, 86, 69,
   76, 73, 83, 84, 22, 0, 0, 0,
   73, 83, 66, 74, 14, 0, 0, 0, 67, 65, 84, 69, 71, 79, 82, 89, 58, 32, 68, 111, 103, 0]

/-- The payload of the `LIST` chunk of `c6File` alone. -/
def c6Payload : List Nat :=
  [73, 83, 66, 74, 14, 0, 0, 0, 67, 65, 84, 69, 71, 79, 82, 89, 58, 32, 68, 111, 103, 0]

/-- Counterexample to C6 as stated: on a file whose metadata list chunk is
tagged `LIST`, the walker extracts nothing (the record is returned
unchanged, `Category` still empty), even though dispatching the chunk's
payload to the INFO extractor would have produced `Category = "Dog"` —
so a `LIST` chunk is skipped, not dispatched. -/
theorem C6_list_counterexample :
    dump_all_wav_chunks c6File (init_metadata "f.wav") = init_metadata "f.wav" ∧
    (process_info_chunk ⟨c6Payload, 0⟩ 22 (init_metadata "f.wav")).2.Category = "Dog" := by
  exact ⟨rfl, rfl⟩

/-- C6 amended: the chunk walker dispatches exactly the IDs `bext`, `iXML`
and `INFO` to their extractors and skips every chunk with any other ID —
including `LIST` — by seeking past its declared size. -/
theorem C6_dispatch_amended :
    (∀ (s : ByteStream) (size : Nat) (m : Metadata),
      dispatch_chunk bextId s size m = process_bext_chunk s size m) ∧
    (∀ (s : ByteStream) (size : Nat) (m : Metadata),
      dispatch_chunk ixmlId s size m = process_ixml_chunk s size m) ∧
    (∀ (s : ByteStream) (size : Nat) (m : Metadata),
      dispatch_chunk infoId s size m = process_info_chunk s size m) ∧
    (∀ (cid : List Nat) (s : ByteStream) (size : Nat) (m : Metadata),
      cid ≠ bextId → cid ≠ ixmlId → cid ≠ infoId →
      dispatch_chunk cid s size m = (bseek s size, m)) ∧
    (∀ (s : ByteStream) (size : Nat) (m : Metadata),
      dispatch_chunk listId s size m = (bseek s size, m)) := by
  refine ⟨fun s size m => ?_, fun s size m => ?_, fun s size m => ?_,
    fun cid s size m h1 h2 h3 => ?_, fun s size m => ?_⟩
  · simp [dispatch_chunk]
  · simp [dispatch_chunk, ixmlId, bextId]
  · simp [dispatch_chunk, infoId, bextId, ixmlId]
  · simp [dispatch_chunk, if_neg h1, if_neg h2, if_neg h3]
  · simp [dispatch_chunk, listId, bextId, ixmlId, infoId]

/-- Witness for C6's amended skip clause at a concrete unknown chunk ID. -/
theorem C6_dispatch_amended_witness :
    dispatch_chunk [0, 1, 2, 3] ⟨[], 0⟩ 5 (init_metadata "x") =
      (bseek ⟨[], 0⟩ 5, init_metadata "x") :=
  C6_dispatch_amended.2.2.2.1 [0, 1, 2, 3] ⟨[], 0⟩ 5 (init_metadata "x")
    (by decide) (by decide) (by decide)

/-- The BEXT field extraction exactly as claim C7 words it: description from
bytes 0..256, originator from 256..288, originator-reference from 288..320,
each truncated at its first NUL, decoded as UTF-8 **with undecodable bytes
replaced**, then stripped.  (Spec-side definition, to be compared with the
source-side `bext_fields`.) -/
def bext_fields_claimed (data : List Nat) : String × String × String :=
  (pyStrip (decodeReplace ((data.take 256).takeWhile (· ≠ 0))),
   pyStrip (decodeReplace (((data.drop 256).take 32).takeWhile (· ≠ 0))),
   pyStrip (decodeReplace (((data.drop 288).take 32).takeWhile (· ≠ 0))))

/-- The same extraction with the decode step amended to match the source:
undecodable bytes are **dropped** (`errors='ignore'`), not replaced. -/
def bext_fields_amended (data : List Nat) : String × String × String :=
  (pyStrip (decodeIgnore ((data.take 256).takeWhile (· ≠ 0))),
   pyStrip (decodeIgnore (((data.drop 256).take 32).takeWhile (· ≠ 0))),
   pyStrip (decodeIgnore (((data.drop 288).take 32).takeWhile (· ≠ 0))))

/-- A bext payload whose description contains an undecodable byte 0xFF. -/
def c7Payload : List Nat := [0x53, 0xFF, 0x31, 0x54, 0x32]

/-- Counterexample to C7 as stated: on the payload `S \xFF 1 T 2` the code's
extraction drops the invalid byte (description `"S1T2"`), while the claimed
replace-mode decoding would give `"S�1T2"`. -/
theorem C7_decode_counterexample :
    bext_fields c7Payload ≠ bext_fields_claimed c7Payload ∧
    (bext_fields c7Payload).1 = "S1T2" ∧
    (bext_fields_claimed c7Payload).1 = "S�1T2" := by
  refine ⟨?_, rfl, rfl⟩
  decide

/-- C7 amended: for every bext payload, the extractor reads the description
from bytes 0..256, the originator from 256..288 and the
originator-reference from 288..320, truncates each at its first NUL byte,
decodes it as UTF-8 with undecodable bytes **dropped** (`errors='ignore'`),
and strips surrounding whitespace, before the regex heuristics run. -/
theorem C7_bext_fields_amended (data : List Nat) :
    bext_fields data = bext_fields_amended data := by
  simp [bext_fields, bext_fields_amended, pySlice]

/-- An iXML object for C8: truthy, `to_dict` present but raising, no useful
direct attributes, and raw content `<BWFXML><CATEGORY>X</CATEGORY></BWFXML>`
that the raw-XML fallback could parse. -/
def c8Obj : IxmlObj :=
  { truthy := true, hasToDict := true, attrs := [],
    toDict := .error "to_dict failed",
    raw := some [60, 66, 87, 70, 88, 77, 76, 62,
      60, 67, 65, 84, 69, 71, 79, 82, 89, 62, 88,
      60, 47, 67, 65, 84, 69, 71, 79, 82, 89, 62, 60, 47, 66, 87, 70, 88, 77, 76, 62] }

/-- Counterexample to C8 as stated: with the structured dictionary view
available but throwing, the iXML section leaves `Category` empty even
though the direct raw-XML parse of the same object's payload would have
produced `Category = "X"` — the fallback is an `elif` and never runs when
`to_dict` exists. -/
theorem C8_fallback_counterexample :
    (ixml_section c8Obj (init_metadata "f.wav")).Category = "" ∧
    (ixml_method2 c8Obj (init_metadata "f.wav")).Category = "X" := by
  exact ⟨rfl, rfl⟩

/-- C8 amended: when the iXML object is truthy and exposes `to_dict`, and
calling `to_dict` raises, the failure is caught (non-fatal) but extraction
does **not** continue with the raw XML parse: the section's result is
exactly what the direct attribute scan alone produced, and the raw-XML
method is never consulted. -/
theorem C8_no_fallback_amended (x : IxmlObj) (m : Metadata) (e : String)
    (h1 : x.truthy = true) (h2 : x.hasToDict = true)
    (h3 : x.toDict = .error e) :
    ixml_section x m = ixml_attr_phase x.attrs m := by
  simp [ixml_section, h1, h2, ixml_method1, h3]

/-- Witness for C8's amended theorem at the concrete throwing object. -/
theorem C8_no_fallback_amended_witness :
    ixml_section c8Obj (init_metadata "x") = ixml_attr_phase c8Obj.attrs (init_metadata "x") :=
  C8_no_fallback_amended c8Obj (init_metadata "x") "to_dict failed" rfl rfl rfl

theorem FS.fwrite_ne (fs : FS) (p : String) (c : List Nat) (q : String) (h : q ≠ p) :
    fs.fwrite p c q = fs q := if_neg h

theorem FS.fwrite_self (fs : FS) (p : String) (c : List Nat) :
    fs.fwrite p c p = some c := if_pos rfl

theorem FS.fdel_ne (fs : FS) (p q : String) (h : q ≠ p) : fs.fdel p q = fs q := if_neg h

theorem FS.fcleanup_ne (fs : FS) (p q : String) (h : q ≠ p) : fs.fcleanup p q = fs q := by
  unfold FS.fcleanup
  split
  · exact FS.fdel_ne fs p q h
  · rfl

/-- C9: the write operation backs the original up to `{path}.bak` only when
no file exists there: an existing backup's content is never changed by a
write, whatever the outcome, and when no backup existed and the write
succeeds the backup path holds the original file's content.  (The temp path
handed out by `NamedTemporaryFile` is fresh, hence distinct from the file
and its backup.) -/
theorem C9_backup_never_overwritten (env : WriteEnv) (fs : FS) (path : String)
    (md : Metadata) (h1 : env.tempPath ≠ path ++ ".bak") (h2 : env.tempPath ≠ path) :
    (∀ b, fs (path ++ ".bak") = some b →
      (write_wav_metadata env fs path md).1 (path ++ ".bak") = some b) ∧
    (fs (path ++ ".bak") = none →
      (write_wav_metadata env fs path md).2 = .ok true →
      (write_wav_metadata env fs path md).1 (path ++ ".bak") = fs path) := by
  have hbp : path ++ ".bak" ≠ path := by
    intro h
    have := congrArg String.length h
    simp [String.length_append] at this
    revert this
    decide
  constructor
  · intro b hb
    cases hr : env.sfRead with
    | error e =>
      simp only [write_wav_metadata, hr]
      rw [FS.fcleanup_ne _ _ _ (Ne.symm h1), FS.fwrite_ne _ _ _ _ (Ne.symm h1)]
      exact hb
    | ok audio =>
      cases hw : env.wavChk with
      | error e =>
        simp only [write_wav_metadata, hr, hw]
        rw [FS.fcleanup_ne _ _ _ (Ne.symm h1), FS.fwrite_ne _ _ _ _ (Ne.symm h1),
          FS.fwrite_ne _ _ _ _ (Ne.symm h1)]
        exact hb
      | ok u =>
        have hb2 : ((fs.fwrite env.tempPath []).fwrite env.tempPath audio) (path ++ ".bak") =
            some b := by
          rw [FS.fwrite_ne _ _ _ _ (Ne.symm h1), FS.fwrite_ne _ _ _ _ (Ne.symm h1)]
          exact hb
        have htmp : ((fs.fwrite env.tempPath []).fwrite env.tempPath audio) env.tempPath =
            some audio := FS.fwrite_self _ _ _
        simp only [write_wav_metadata, hr, hw, hb2, Option.isSome_some, if_true, FS.fcopy, htmp]
        rw [FS.fdel_ne _ _ _ (Ne.symm h1), FS.fwrite_ne _ _ _ _ hbp]
        exact hb2
  · intro hnone hok
    cases hr : env.sfRead with
    | error e =>
      simp only [write_wav_metadata, hr] at hok
      exact absurd hok (by simp)
    | ok audio =>
      cases hw : env.wavChk with
      | error e =>
        simp only [write_wav_metadata, hr, hw] at hok
        exact absurd hok (by simp)
      | ok u =>
        have hb2 : ((fs.fwrite env.tempPath []).fwrite env.tempPath audio) (path ++ ".bak") =
            none := by
          rw [FS.fwrite_ne _ _ _ _ (Ne.symm h1), FS.fwrite_ne _ _ _ _ (Ne.symm h1)]
          exact hnone
        have hfs2path : ((fs.fwrite env.tempPath []).fwrite env.tempPath audio) path =
            fs path := by
          rw [FS.fwrite_ne _ _ _ _ (Ne.symm h2), FS.fwrite_ne _ _ _ _ (Ne.symm h2)]
        cases hp : fs path with
        | none =>
          simp only [write_wav_metadata, hr, hw, hb2, Option.isSome_none, Bool.false_eq_true,
            if_false, FS.fcopy, hfs2path, hp] at hok
          exact absurd hok (by simp)
        | some c =>
          have htmp : (((fs.fwrite env.tempPath []).fwrite env.tempPath audio).fwrite
              (path ++ ".bak") c) env.tempPath = some audio := by
            rw [FS.fwrite_ne _ _ _ _ h1]
            exact FS.fwrite_self _ _ _
          simp only [write_wav_metadata, hr, hw, hb2, Option.isSome_none, Bool.false_eq_true,
            if_false, FS.fcopy, hfs2path, hp, htmp]
          rw [FS.fdel_ne _ _ _ (Ne.symm h1), FS.fwrite_ne _ _ _ _ hbp]
          exact FS.fwrite_self _ _ _

/-- A file system for the C9 witness: a 2-byte file at `a`, a stale backup
at `a.bak`. -/
def c9FsWithBak : FS := fun q =>
  if q = "a" then some [1, 2] else if q = "a" ++ ".bak" then some [7] else none

/-- A file system for the C9 witness: a 2-byte file at `a`, no backup. -/
def c9FsNoBak : FS := fun q => if q = "a" then some [1, 2] else none

/-- A write environment for the C9 witness: temp path `t`, decode succeeds. -/
def c9Env : WriteEnv := { tempPath := "t", sfRead := .ok [9], wavChk := .ok () }

/-- Witness for C9 at concrete inputs: an existing backup keeps its content
through a write, and a missing backup receives the original content. -/
theorem C9_backup_never_overwritten_witness :
    (write_wav_metadata c9Env c9FsWithBak "a" (init_metadata "a")).1 ("a" ++ ".bak") =
      some [7] ∧
    (write_wav_metadata c9Env c9FsNoBak "a" (init_metadata "a")).1 ("a" ++ ".bak") =
      c9FsNoBak "a" :=
  ⟨(C9_backup_never_overwritten c9Env c9FsWithBak "a" (init_metadata "a")
      (by decide) (by decide)).1 [7] rfl,
   (C9_backup_never_overwritten c9Env c9FsNoBak "a" (init_metadata "a")
      (by decide) (by decide)).2 rfl rfl⟩

theorem info_step_advance (data : List Nat) (pos : Nat) (m : Metadata)
    (pos2 : Nat) (m2 : Metadata) (h : info_step data pos m = some (pos2, m2)) :
    pos + 9 ≤ pos2 := by
  rcases info_step_eq data pos m with he | ⟨_, hpos, _, he⟩
  · rw [he] at h
    exact absurd h (by simp)
  · rw [he] at h
    obtain ⟨hp, _⟩ := Prod.mk.inj (Option.some.inj h)
    omega

/-- C10: the INFO sub-record walk terminates and stays inside its buffer.
First part: one iteration entered under the loop condition either breaks
(`none`: a short size field or a zero/out-of-bounds declared length) or
advances the position by exactly `8 + len` plus one pad byte when `len` is
odd, for a positive declared length `len` with the whole sub-record inside
the buffer (`pos + 8 + len ≤ data.length`).  Second part: the fuelled loop
is independent of the fuel once the fuel covers the remaining bytes, which
is the termination of the walk. -/
theorem C10_info_walk_terminates :
    (∀ (data : List Nat) (pos : Nat) (m : Metadata), pos < data.length - 8 →
      info_step data pos m = none ∨
      ∃ len, 0 < len ∧ pos + 8 + len ≤ data.length ∧
        info_step data pos m =
          some (pos + 8 + len + (if len % 2 = 1 then 1 else 0),
            info_step_md data pos len m)) ∧
    (∀ (f g : Nat) (data : List Nat) (pos : Nat) (m : Metadata),
      data.length - 8 - pos ≤ f → data.length - 8 - pos ≤ g →
      info_loop f data pos m = info_loop g data pos m) := by
  constructor
  · intro data pos m _
    rcases info_step_eq data pos m with he | ⟨_, hpos, hle, he⟩
    · exact Or.inl he
    · exact Or.inr ⟨le32 (pySlice (pos + 4) (pos + 8) data), hpos, hle, he⟩
  · intro f
    induction f with
    | zero =>
      intro g data pos m hf hg
      have hc : ¬ (pos < data.length - 8) := by omega
      cases g with
      | zero => rfl
      | succ g2 =>
        show m = info_loop (g2 + 1) data pos m
        rw [info_loop, if_neg hc]
    | succ f2 ih =>
      intro g data pos m hf hg
      by_cases hc : pos < data.length - 8
      · obtain ⟨g2, rfl⟩ : ∃ g2, g = g2 + 1 := ⟨g - 1, by omega⟩
        simp only [info_loop]
        rw [if_pos hc, if_pos hc]
        cases hstep : info_step data pos m with
        | none => rfl
        | some pm =>
          obtain ⟨pos2, m2⟩ := pm
          have hadv : pos + 9 ≤ pos2 := info_step_advance data pos m pos2 m2 hstep
          exact ih g2 data pos2 m2 (by omega) (by omega)
      · cases g with
        | zero =>
          show info_loop (f2 + 1) data pos m = m
          rw [info_loop, if_neg hc]
        | succ g2 =>
          simp only [info_loop]
          rw [if_neg hc, if_neg hc]

/-- Witness for C10 at a concrete INFO payload (the `ISBJ` sub-record of the
C6 file) and two different fuels. -/
theorem C10_info_walk_terminates_witness :
    (info_step c6Payload 0 (init_metadata "x") = none ∨
      ∃ len, 0 < len ∧ 0 + 8 + len ≤ c6Payload.length ∧
        info_step c6Payload 0 (init_metadata "x") =
          some (0 + 8 + len + (if len % 2 = 1 then 1 else 0),
            info_step_md c6Payload 0 len (init_metadata "x"))) ∧
    info_loop 22 c6Payload 0 (init_metadata "x") =
      info_loop 23 c6Payload 0 (init_metadata "x") :=
  ⟨C10_info_walk_terminates.1 c6Payload 0 (init_metadata "x") (by decide),
   C10_info_walk_terminates.2 22 23 c6Payload 0 (init_metadata "x") (by decide) (by decide)⟩
